import Mathlib

/-!
Verification of the `yamlinclude/constructor.py` include-resolution
constructor against its natural-language specification.

The development shallowly embeds the Python module: the YAML library,
the operating-system environment, the filesystem and the glob facility
are external collaborators and appear as explicit parameters (fields of
`Ctx`); the functions of the module itself are translated directly from
the source.
-/

set_option linter.unusedVariables false

/-- Python exception classes that can arise on the translated code paths. -/
inductive PyErr where
  | keyError
  | typeError
  | yamlError
  | ioError
  | valueError
deriving DecidableEq, Repr

/-- YAML values as produced by the external yaml library (mapping keys are
restricted to strings, the common case for configuration data). -/
inductive Yaml where
  | null
  | bool (b : Bool)
  | int (n : Int)
  | str (s : String)
  | seq (xs : List Yaml)
  | map (kvs : List (String × Yaml))

/-- A single-quote character, used by the Python repr of strings. -/
def pySq : String := String.singleton (Char.ofNat 39)

/-- Python repr of a string (embedded-quote escaping elided: the model is
exact for strings without quotes, which is all the claims exercise). -/
def pyQuote (s : String) : String := pySq ++ s ++ pySq

mutual

/-- Python repr() of a YAML value. -/
def Yaml.pyRepr : Yaml → String
  | .null => "None"
  | .bool b => if b then "True" else "False"
  | .int n => toString n
  | .str s => pyQuote s
  | .seq xs => "[" ++ pyReprList xs ++ "]"
  | .map kvs => "\x7b" ++ pyReprPairs kvs ++ "\x7d"

/-- Comma-joined reprs of the elements of a Python list. -/
def pyReprList : List Yaml → String
  | [] => ""
  | [x] => Yaml.pyRepr x
  | x :: y :: xs => Yaml.pyRepr x ++ ", " ++ pyReprList (y :: xs)

/-- Comma-joined reprs of the items of a Python dict. -/
def pyReprPairs : List (String × Yaml) → String
  | [] => ""
  | [(k, v)] => pyQuote k ++ ": " ++ Yaml.pyRepr v
  | (k, v) :: p :: kvs => pyQuote k ++ ": " ++ Yaml.pyRepr v ++ ", " ++ pyReprPairs (p :: kvs)

end

/-- Python str() of a YAML value: identity on strings, repr on containers,
`None`/`True`/`False` and decimal notation on the remaining scalars.  This
models the `str(aValue)` call at line 145 of the source. -/
def Yaml.pyStr : Yaml → String
  | .str s => s
  | v => v.pyRepr

/-- Lookup in an association list where a later binding overrides an earlier
one, as in a Python dict built by repeated insertion. -/
def lookupLast (kvs : List (String × Yaml)) (k : String) : Option Yaml :=
  kvs.foldl (fun acc kv => if kv.1 = k then some kv.2 else acc) none

/-- Python subscription `aValue[akey]` for the values the walk at source
lines 137-141 can reach: a dict lookup raises KeyError when the key is
missing, and every non-mapping value raises TypeError when subscripted
with a string key. -/
def Yaml.getItem : Yaml → String → Except PyErr Yaml
  | .map kvs, k =>
    match lookupLast kvs k with
    | some v => .ok v
    | none => .error .keyError
  | _, _ => .error .typeError

/-- The loop `for akey in keyList: aValue = aValue[akey]` of source lines
136-141, starting from the parsed `config` mapping. -/
def walkKeys (v : Yaml) : List String → Except PyErr Yaml
  | [] => .ok v
  | k :: ks =>
    match v.getItem k with
    | .ok v2 => walkKeys v2 ks
    | .error e => .error e

/-- Membership test for the character class `[^}^{]` of the placeholder
regular expression at source line 118: any character other than the two
braces and the caret. -/
def tokenClassChar (c : Char) : Bool :=
  c ≠ '\x7b' && c ≠ '\x7d' && c ≠ '^'

/-- The scan performed by `re.findall` with the pattern of source line 118:
leftmost non-overlapping occurrences of a dollar sign, an opening brace, a
nonempty run of class characters and a closing brace; the captured runs are
returned in order.  On a failed candidate the scan resumes one character
after the candidate start, exactly as the regex engine does.  The fuel
argument only serves structural termination; every recursive call shortens
the list, so fuel equal to the list length never runs out. -/
def findTokensAux : Nat → List Char → List String
  | _, [] => []
  | 0, _ => []
  | fuel + 1, '$' :: '\x7b' :: rest =>
    match rest.dropWhile tokenClassChar with
    | '\x7d' :: tail =>
      if (rest.takeWhile tokenClassChar).isEmpty then
        findTokensAux fuel ('\x7b' :: rest)
      else
        (rest.takeWhile tokenClassChar).asString :: findTokensAux fuel tail
    | _ => findTokensAux fuel ('\x7b' :: rest)
  | fuel + 1, _ :: rest => findTokensAux fuel rest

/-- Tokens of all `$\x7bname\x7d` placeholders found in a string, in match
order, as computed by `re.findall` at source line 126. -/
def findTokens (s : String) : List String :=
  findTokensAux s.data.length s.data

/-- Matching of the token part of the replacement pattern built at source
line 145: the token text is spliced into a regular expression unescaped, so
a dot in the token matches any character except a newline, while the other
characters the claims exercise match literally.  On success the remainder
of the input after the token and its closing brace is returned.  (The model
is faithful for tokens free of regex metacharacters other than the dot.) -/
def tokTail : List Char → List Char → Option (List Char)
  | [], [] => none
  | [], x :: xs => if x = '\x7d' then some xs else none
  | _ :: _, [] => none
  | c :: cs, x :: xs =>
    if (c = '.' && x ≠ '\n') || c = x then tokTail cs xs else none

/-- Attempt to match the whole pattern (dollar, open brace, token, close
brace) at the head of the input, with the token interpreted as a regex. -/
def patMatchAt (tok : List Char) : List Char → Option (List Char)
  | a :: b :: rest => if a = '$' && b = '\x7b' then tokTail tok rest else none
  | _ => none

/-- The scan-and-replace loop of `re.sub` for the pattern of source line
145: leftmost non-overlapping matches are replaced, scanning resumes after
each replaced region of the original input, and replacement text is
inserted verbatim (faithful for replacement text without backslashes).  A
successful match consumes at least three characters, so fuel equal to the
input length never runs out. -/
def reSubAux (tok repl : List Char) : Nat → List Char → List Char
  | _, [] => []
  | 0, l => l
  | fuel + 1, c :: rest =>
    match patMatchAt tok (c :: rest) with
    | some after => repl ++ reSubAux tok repl fuel after
    | none => c :: reSubAux tok repl fuel rest

/-- The `re.sub` call of source line 145, with the pattern built by splicing
the token text between the placeholder delimiters. -/
def reSub (tok repl s : String) : String :=
  (reSubAux tok.data repl.data s.data.length s.data).asString

/-- Environment-variable lookup, modelling `os.environ[name]` (absence maps
to KeyError at the call sites). -/
def lookupEnv (env : List (String × String)) (k : String) : Option String :=
  env.lookup k

/-- The filesystem as the module observes it: regular files with decoded
text content, and the enumeration the glob facility yields for a pattern
and a recursive flag.  Entries returned by `glob` that are not regular
files are possible and are filtered by the caller. -/
structure FS where
  files : List (String × String)
  glob : String → Bool → List String

/-- The `os.path.isfile` test of source line 161. -/
def FS.isFile (fs : FS) (p : String) : Bool :=
  (fs.files.lookup p).isSome

/-- The `io.open(path, encoding=enc)` call followed by a full read: the
content of the regular file, or an I/O error when the path does not name
one.  Decoding is modelled as encoding-independent. -/
def FS.openF (fs : FS) (p : String) (enc : String) : Option String :=
  fs.files.lookup p

/-- External collaborators of the module: the process environment, the
Python version string, the yaml library (as the two loading entry points
the source calls) and the filesystem. -/
structure Ctx where
  env : List (String × String)
  pyVersion : String
  yamlLoadFull : String → Except PyErr Yaml
  yamlLoadWith : Nat → String → Except PyErr Yaml
  fs : FS

/-- A PyYAML loader instance; `kind` stands for `type(loader)`. -/
structure Loader where
  kind : Nat

/-- The resolver object: the two attributes set in `__init__` and mutated
only by the two property setters. -/
structure YamlIncludeConstructor where
  base_dir : Option String
  encoding : Option String
deriving DecidableEq, Repr

/-- The class constant DEFAULT_ENCODING. -/
def DEFAULT_ENCODING : String := "utf-8"

/-- The class constant DEFAULT_TAG_NAME. -/
def DEFAULT_TAG_NAME : String := "!include"

/-- The `base_dir` property setter. -/
def YamlIncludeConstructor.set_base_dir (self : YamlIncludeConstructor)
    (v : Option String) : YamlIncludeConstructor :=
  { self with base_dir := v }

/-- The `encoding` property setter. -/
def YamlIncludeConstructor.set_encoding (self : YamlIncludeConstructor)
    (v : Option String) : YamlIncludeConstructor :=
  { self with encoding := v }

/-- Python str.split with a one-character dot separator, as used at source
line 134 to turn a token into its key list: maximal dot-free chunks,
including empty ones around consecutive or outer dots. -/
def splitOnDotAux : List Char → List Char → List String
  | [], acc => [acc.reverse.asString]
  | c :: rest, acc =>
    if c = '.' then acc.reverse.asString :: splitOnDotAux rest []
    else splitOnDotAux rest (c :: acc)

/-- The call `valueName.split(".")` of source line 134. -/
def pySplitDot (s : String) : List String :=
  splitOnDotAux s.data []

/-- The token loop of source lines 127-145: for each found token, try the
environment, then the dotted-key walk through the parsed config; a missing
key degrades to the empty string with a printed diagnostic, while any other
exception of the walk propagates.  The running string and the diagnostics
printed so far are threaded through. -/
def substLoop (env : List (String × String)) (cfg : Yaml) :
    List String → String → List String → (Except PyErr String) × List String
  | [], s, ds => (.ok s, ds)
  | tok :: rest, s, ds =>
    match lookupEnv env tok with
    | some v => substLoop env cfg rest (reSub tok v s) ds
    | none =>
      match walkKeys cfg (pySplitDot tok) with
      | .ok y => substLoop env cfg rest (reSub tok y.pyStr s) ds
      | .error .keyError =>
          substLoop env cfg rest (reSub tok "" s)
            (ds ++ ["No value for variable: " ++ tok])
      | .error e => (.error e, ds)

/-- The whole substitution block of source lines 118-148, with the outer
`try`/`except KeyError` translated explicitly: a missing `config`
environment variable (and nothing else catchable as KeyError) leaves the
pathname untouched; any other exception of the block propagates, with the
diagnostics printed before it preserved. -/
def substitute (ctx : Ctx) (pathname : String) :
    (Except PyErr String) × List String :=
  match lookupEnv ctx.env "config" with
  | none => (.ok pathname, [])
  | some raw =>
    match ctx.yamlLoadFull raw with
    | .error e => (if e = .keyError then .ok pathname else .error e, [])
    | .ok cfg =>
      match substLoop ctx.env cfg (findTokens pathname) pathname [] with
      | (.error .keyError, ds) => (.ok pathname, ds)
      | r => r

/-- Can the anchor `$` of the wildcard regular expression match after a run
of `.*` applied to this suffix: either the whole suffix is newline-free, or
it is a newline-free run followed by a single final newline. -/
def dollarEnd (l : List Char) : Bool :=
  l.all (fun c => c ≠ '\n') ||
    (!l.isEmpty && (l.getLast? == some '\n') && l.dropLast.all (fun c => c ≠ '\n'))

/-- Search for the closing bracket of `\[!?.+\]` with at least the initial
content character already consumed: some later position holds `]`, all
content before it is newline-free, and the tail after it satisfies the
trailing `.*$`. -/
def seekRB : List Char → Bool
  | [] => false
  | c :: rest =>
    if c = '\n' then false
    else (c = ']' && dollarEnd rest) || seekRB rest

/-- Can the bracket-class alternative match right after an opening bracket:
one non-newline content character, then a closing bracket found by
`seekRB`. -/
def bracketSplit : List Char → Bool
  | [] => false
  | c :: rest => c ≠ '\n' && seekRB rest

/-- Matching of WILDCARDS_REGEX (source line 24) by `re.match` (source line
154): after a newline-free prefix consumed by `.*`, one of the three
wildcard alternatives must match, followed by `.*$`. -/
def wildMatchFrom : List Char → Bool
  | [] => false
  | c :: rest =>
    if c = '\n' then false
    else if (c = '*' || c = '?') && dollarEnd rest then true
    else if c = '[' && bracketSplit rest then true
    else wildMatchFrom rest

/-- String-level wildcard classification, as the source performs it at line
154. -/
def regexWildMatch (s : String) : Bool :=
  wildMatchFrom s.data

/-- Is there a closing bracket at distance at least two from the opening
one (at least one character of content in between). -/
def bracketClose : List Char → Bool
  | [] => false
  | _ :: rest => rest.contains ']'

/-- Does the character list contain an opening bracket followed, with at
least one character in between, by a closing bracket. -/
def hasBracketPair : List Char → Bool
  | [] => false
  | c :: rest => (c = '[' && bracketClose rest) || hasBracketPair rest

/-- Modelled from the spec: the claim-side wildcard test of sections 4.3
and 7 of the specification, a pathname containing a `*`, a `?`, or a
bracketed character class. -/
def containsWildcardMeta (s : String) : Bool :=
  s.data.contains '*' || s.data.contains '?' || hasBracketPair s.data

/-- Python str.startswith, on the character lists. -/
def pyStartsWith (s pre : String) : Bool :=
  List.isPrefixOf pre.data s.data

/-- Python str.endswith, on the character lists. -/
def pyEndsWithStr (s suf : String) : Bool :=
  List.isSuffixOf suf.data s.data

/-- Python `os.path.join` restricted to two posix path arguments, as called
at source line 153. -/
def pyPathJoin (a b : String) : String :=
  if pyStartsWith b "/" then b
  else if a = "" || pyEndsWithStr a "/" then a ++ b
  else a ++ "/" ++ b

/-- The conditional base-directory joining of source lines 152-153,
including the Python truthiness test on the attribute. -/
def applyBaseDir (self : YamlIncludeConstructor) (p : String) : String :=
  match self.base_dir with
  | some b => if b = "" then p else pyPathJoin b p
  | none => p

/-- The encoding defaulting of source lines 150-151, including the Python
truthiness tests on the argument and on the attribute. -/
def pickEncoding (self : YamlIncludeConstructor) (encoding : Option String) :
    String :=
  let selfEnc :=
    match self.encoding with
    | some e => if e = "" then DEFAULT_ENCODING else e
    | none => DEFAULT_ENCODING
  match encoding with
  | some e => if e = "" then selfEnc else e
  | none => selfEnc

/-- The single result of an include: a parsed YAML value for a YAML file, a
raw string for any other file, or the list collected for a wildcard
pattern. -/
inductive Included where
  | yaml (v : Yaml)
  | text (s : String)
  | list (xs : List Included)

/-- The test `path.lower().endswith(suffix)` of source line 170, on the
character lists (lowering is exact on the ASCII file names involved). -/
def pyLowerEndsWith (path suffix : String) : Bool :=
  List.isSuffixOf suffix.data (path.data.map Char.toLower)

/-- The classmethod `loadYaml` of source lines 168-173: a name ending
case-insensitively in `.yaml` or `.yml` is parsed by the yaml library with
the type of the active loader; any other file is returned as its raw
text. -/
def loadYamlM (ctx : Ctx) (path content : String) (loader : Loader) :
    Except PyErr Included :=
  if pyLowerEndsWith path ".yaml" || pyLowerEndsWith path ".yml" then
    (ctx.yamlLoadWith loader.kind content).map Included.yaml
  else
    .ok (.text content)

/-- Opening and loading one resolved path: the body executed for a single
file either at source lines 162-163 or at lines 165-166. -/
def loadOne (ctx : Ctx) (loader : Loader) (enc : String) (p : String) :
    Except PyErr Included :=
  match ctx.fs.openF p enc with
  | none => .error .ioError
  | some content => loadYamlM ctx p content loader

/-- The glob iteration of source lines 160-163: entries that are not
regular files are skipped, the others are opened and loaded in enumeration
order, and any exception of a single load propagates. -/
def globLoad (ctx : Ctx) (loader : Loader) (enc : String) :
    List String → Except PyErr (List Included)
  | [] => .ok []
  | p :: rest =>
    if ctx.fs.isFile p then
      match loadOne ctx loader enc p with
      | .error e => .error e
      | .ok v => (globLoad ctx loader enc rest).map (v :: ·)
    else
      globLoad ctx loader enc rest

/-- Independent sequential loading of a list of files, used to state that
each wildcard element equals the file loaded individually. -/
def loadAll (ctx : Ctx) (loader : Loader) (enc : String) :
    List String → Except PyErr (List Included)
  | [] => .ok []
  | p :: rest =>
    match loadOne ctx loader enc p with
    | .error e => .error e
    | .ok v => (loadAll ctx loader enc rest).map (v :: ·)

/-- The glob invocation of source lines 156-159, with the string comparison
of the Python version deciding whether the recursive flag is forwarded. -/
def globList (ctx : Ctx) (p : String) (recursive : Bool) : List String :=
  ctx.fs.glob p (if "3.5" ≤ ctx.pyVersion then recursive else false)

/-- The glob matches that are regular files, in enumeration order. -/
def globRegularFiles (ctx : Ctx) (p : String) (recursive : Bool) :
    List String :=
  (globList ctx p recursive).filter ctx.fs.isFile

/-- The tail of `load` after substitution, defaulting and joining (source
lines 154-166): wildcard patterns are expanded and collected into a list,
a plain pathname is opened directly and a failure to open it is a fatal
I/O error. -/
def loadResolved (ctx : Ctx) (loader : Loader) (p : String)
    (recursive : Bool) (enc : String) : Except PyErr Included :=
  if regexWildMatch p then
    match globLoad ctx loader enc (globList ctx p recursive) with
    | .error e => .error e
    | .ok vs => .ok (.list vs)
  else
    match ctx.fs.openF p enc with
    | none => .error .ioError
    | some content => loadYamlM ctx p content loader

/-- The outcome of a call into the resolver: the returned value or the
propagated exception, the diagnostics printed, and the resolver state at
exit. -/
structure LoadOut where
  result : Except PyErr Included
  diags : List String
  resolver : YamlIncludeConstructor

/-- The method `load` of source lines 96-166. -/
def YamlIncludeConstructor.load (self : YamlIncludeConstructor) (ctx : Ctx)
    (loader : Loader) (pathname : String) (recursive : Bool)
    (encoding : Option String) : LoadOut :=
  match substitute ctx pathname with
  | (.error e, ds) => ⟨.error e, ds, self⟩
  | (.ok p1, ds) =>
    ⟨loadResolved ctx loader (applyBaseDir self p1) recursive
        (pickEncoding self encoding), ds, self⟩

/-- Python values produced by the node-construction primitives of the
loader, as far as the argument forms of the tag exercise them. -/
inductive PyVal where
  | str (s : String)
  | bool (b : Bool)
  | int (n : Int)
  | pynone
deriving DecidableEq, Repr

/-- A YAML parse-tree node as handed to the constructor callback: the three
supported shapes carry the values their construction primitives yield; a
node of any other shape is possible for the yaml library and is modelled by
`other`. -/
inductive Node where
  | scalar (text : String)
  | sequence (elems : List PyVal)
  | mapping (pairs : List (String × PyVal))
  | other

/-- Last-binding-wins lookup for the kwargs dict built by
`construct_mapping`. -/
def lookupKw (ps : List (String × PyVal)) (k : String) : Option PyVal :=
  ps.foldl (fun acc kv => if kv.1 = k then some kv.2 else acc) none

/-- Is the key one of the named parameters of `load`. -/
def allowedKey (k : String) : Bool :=
  k = "pathname" || k = "recursive" || k = "encoding"

/-- The argument extraction of `__call__` (source lines 59-70) combined
with the binding of `load` parameters: a scalar contributes the sole
positional pathname, a sequence its elements positionally, a mapping its
entries as keyword arguments; arity and keyword mismatches are the
TypeErrors Python raises at the call of `load`, and any other node shape is
the TypeError raised explicitly at source line 69. -/
def bindArgs : Node → Except PyErr (PyVal × PyVal × PyVal)
  | .scalar t => .ok (.str t, .bool false, .pynone)
  | .sequence [p] => .ok (p, .bool false, .pynone)
  | .sequence [p, r] => .ok (p, r, .pynone)
  | .sequence [p, r, e] => .ok (p, r, e)
  | .sequence _ => .error .typeError
  | .mapping ps =>
    if ps.all (fun kv => allowedKey kv.1) then
      match lookupKw ps "pathname" with
      | none => .error .typeError
      | some p =>
        .ok (p, (lookupKw ps "recursive").getD (.bool false),
          (lookupKw ps "encoding").getD .pynone)
    else .error .typeError
  | .other => .error .typeError

/-- Python truthiness of the argument values the dispatch passes on. -/
def pyTruthy : PyVal → Bool
  | .str s => s ≠ ""
  | .bool b => b
  | .int n => n ≠ 0
  | .pynone => false

/-- View of a bound encoding argument as the optional string `load`
consumes (the model restricts encoding arguments to strings and None). -/
def asEncoding : PyVal → Option String
  | .str es => some es
  | _ => none

/-- The method `__call__` of source lines 59-70: extract the arguments
according to the node shape and delegate to `load`; a pathname that is not
a string is the TypeError Python raises when the pattern is scanned. -/
def YamlIncludeConstructor.call (self : YamlIncludeConstructor) (ctx : Ctx)
    (loader : Loader) (node : Node) : LoadOut :=
  match bindArgs node with
  | .error e => ⟨.error e, [], self⟩
  | .ok (p, r, e) =>
    match p with
    | .str ps => self.load ctx loader ps (pyTruthy r) (asEncoding e)
    | _ => ⟨.error .typeError, [], self⟩

/-- Python str.strip() with no argument: surrounding ASCII whitespace is
removed. -/
def pyStrip (s : String) : String :=
  let ws : List Char := [' ', '\t', '\n', '\r', '\x0b', '\x0c']
  (((s.data.dropWhile ws.contains).reverse.dropWhile ws.contains).reverse).asString

/-- The process-wide constructor registry of the yaml library: bindings of
a loader class (None meaning the default loader) and a tag to a resolver
instance, most recent first. -/
structure Registry where
  bindings : List (Option Nat × String × YamlIncludeConstructor)
deriving DecidableEq, Repr

/-- The classmethod `add_to_loader_class` of source lines 175-226: the tag
defaults to the empty string, is stripped, an empty result is replaced by
DEFAULT_TAG_NAME, a result not starting with the exclamation mark raises
ValueError before anything is registered, and otherwise a fresh instance is
constructed, registered and returned. -/
def add_to_loader_class (loader_class : Option Nat) (tag : Option String)
    (base_dir : Option String) (encoding : Option String) (reg : Registry) :
    (Except PyErr YamlIncludeConstructor) × Registry :=
  let t0 := pyStrip (tag.getD "")
  let t := if t0 = "" then DEFAULT_TAG_NAME else t0
  if !pyStartsWith t "!" then (.error .valueError, reg)
  else
    let inst : YamlIncludeConstructor := ⟨base_dir, encoding⟩
    (.ok inst, ⟨(loader_class, t, inst) :: reg.bindings⟩)

theorem dollarEnd_of_noNL {l : List Char}
    (h : l.all (fun c => c ≠ '\n') = true) : dollarEnd l = true := by
  simp only [dollarEnd, h, Bool.true_or]

theorem seekRB_contains : ∀ l : List Char, seekRB l = true →
    l.contains ']' = true := by
  intro l
  induction l with
  | nil => intro h; simp [seekRB] at h
  | cons c rest ih =>
    intro h
    simp only [seekRB] at h
    split at h
    · simp at h
    · rcases Bool.or_eq_true_iff.mp h with h1 | h2
      · have hc : c = ']' := by
          rcases Bool.and_eq_true_iff.mp h1 with ⟨hc, _⟩
          exact of_decide_eq_true hc
        simp [hc]
      · have hm : ']' ∈ rest := by simpa using ih h2
        simp [hm]

theorem contains_seekRB : ∀ l : List Char,
    l.all (fun c => c ≠ '\n') = true → l.contains ']' = true →
    seekRB l = true := by
  intro l
  induction l with
  | nil => intro _ h; simp at h
  | cons c rest ih =>
    intro hnl hc
    simp only [List.all_cons, Bool.and_eq_true_iff] at hnl
    obtain ⟨hc0, hrest⟩ := hnl
    have hcn : ¬ (c = '\n') := by simpa using hc0
    simp only [seekRB, if_neg hcn]
    simp only [List.contains_cons, Bool.or_eq_true_iff] at hc
    rcases hc with h1 | h2
    · have hcq : c = ']' := by
        have : ']' = c := by simpa using h1
        exact this.symm
      simp [hcq, dollarEnd_of_noNL hrest]
    · simp [ih hrest h2]

theorem hasBracketPair_cons (c : Char) (rest : List Char)
    (h : hasBracketPair rest = true) : hasBracketPair (c :: rest) = true := by
  simp [hasBracketPair, h]

theorem bracketClose_iff (l : List Char) :
    bracketClose l = true ↔ ∃ c r, l = c :: r ∧ ']' ∈ r := by
  cases l with
  | nil => simp [bracketClose]
  | cons c r =>
    simp only [bracketClose]
    constructor
    · intro h
      exact ⟨c, r, rfl, by simpa using h⟩
    · rintro ⟨c2, r2, heq, hm⟩
      injection heq with h1 h2
      subst h2
      simpa using hm

theorem wildMatchFrom_meta : ∀ l : List Char, wildMatchFrom l = true →
    '*' ∈ l ∨ '?' ∈ l ∨ hasBracketPair l = true := by
  intro l
  induction l with
  | nil => intro h; simp [wildMatchFrom] at h
  | cons c rest ih =>
    intro h
    simp only [wildMatchFrom] at h
    split at h
    · simp at h
    · split at h
      · next hg =>
        rcases Bool.and_eq_true_iff.mp hg with ⟨hsq, _⟩
        rcases Bool.or_eq_true_iff.mp hsq with hs | hq
        · exact Or.inl (by simp [of_decide_eq_true hs])
        · exact Or.inr (Or.inl (by simp [of_decide_eq_true hq]))
      · split at h
        · next hg =>
          rcases Bool.and_eq_true_iff.mp hg with ⟨hcb, hbs⟩
          have hc : c = '[' := of_decide_eq_true hcb
          right; right
          match rest, hbs with
          | c2 :: r2, hbs =>
            have hseek : seekRB r2 = true := by
              simp only [bracketSplit, Bool.and_eq_true_iff] at hbs
              exact hbs.2
            have hm : ']' ∈ r2 := by simpa using seekRB_contains r2 hseek
            have hclose : bracketClose (c2 :: r2) = true :=
              (bracketClose_iff (c2 :: r2)).mpr ⟨c2, r2, rfl, hm⟩
            simp [hasBracketPair, hc, hclose]
        · rcases ih h with h1 | h2 | h3
          · exact Or.inl (List.mem_cons_of_mem c h1)
          · exact Or.inr (Or.inl (List.mem_cons_of_mem c h2))
          · exact Or.inr (Or.inr (hasBracketPair_cons c rest h3))

theorem meta_wildMatchFrom : ∀ l : List Char,
    (∀ c ∈ l, c ≠ '\n') →
    ('*' ∈ l ∨ '?' ∈ l ∨ hasBracketPair l = true) →
    wildMatchFrom l = true := by
  intro l
  induction l with
  | nil => intro _ h; simp [hasBracketPair] at h
  | cons c rest ih =>
    intro hnl hm
    have hcn : ¬ (c = '\n') := hnl c (List.mem_cons_self c rest)
    have hrest : ∀ x ∈ rest, x ≠ '\n' :=
      fun x hx => hnl x (List.mem_cons_of_mem c hx)
    have hrestb : rest.all (fun x => x ≠ '\n') = true := by
      simp only [List.all_eq_true]
      intro x hx
      simpa using hrest x hx
    have hde : dollarEnd rest = true := dollarEnd_of_noNL hrestb
    simp only [wildMatchFrom, if_neg hcn]
    by_cases hg1 : ((c = '*' || c = '?') && dollarEnd rest) = true
    · simp [hg1]
    · rw [if_neg (by simpa using hg1)]
      by_cases hg2 : (c = '[' && bracketSplit rest) = true
      · simp [hg2]
      · rw [if_neg (by simpa using hg2)]
        apply ih hrest
        rcases hm with h1 | h2 | h3
        · rcases List.mem_cons.mp h1 with hc | hr
          · exfalso
            exact hg1 (by simp [← hc, hde])
          · exact Or.inl hr
        · rcases List.mem_cons.mp h2 with hc | hr
          · exfalso
            exact hg1 (by simp [← hc, hde])
          · exact Or.inr (Or.inl hr)
        · simp only [hasBracketPair, Bool.or_eq_true_iff] at h3
          rcases h3 with h3a | h3b
          · exfalso
            rcases Bool.and_eq_true_iff.mp h3a with ⟨hcb, hclose⟩
            rcases (bracketClose_iff rest).mp hclose with ⟨c2, r2, heq, hmem⟩
            subst heq
            have hc2 : ¬ (c2 = '\n') := hrest c2 (List.mem_cons_self c2 r2)
            have hr2 : ∀ x ∈ r2, x ≠ '\n' :=
              fun x hx => hrest x (List.mem_cons_of_mem c2 hx)
            have hr2b : r2.all (fun x => x ≠ '\n') = true := by
              simp only [List.all_eq_true]
              intro x hx
              simpa using hr2 x hx
            have hseek : seekRB r2 = true :=
              contains_seekRB r2 hr2b (by simpa using hmem)
            apply hg2
            simp only [bracketSplit, Bool.and_eq_true_iff]
            refine ⟨hcb, ?_, ?_⟩
            · simpa using hc2
            · exact hseek
          · exact Or.inr (Or.inr h3b)

theorem globLoad_eq_loadAll (ctx : Ctx) (loader : Loader) (enc : String) :
    ∀ l, globLoad ctx loader enc l =
      loadAll ctx loader enc (l.filter ctx.fs.isFile) := by
  intro l
  induction l with
  | nil => rfl
  | cons p rest ih =>
    cases hf : ctx.fs.isFile p with
    | true => simp [globLoad, loadAll, hf, List.filter_cons, ih]
    | false => simp [globLoad, hf, List.filter_cons, ih]

theorem loadAll_ok (ctx : Ctx) (loader : Loader) (enc : String) :
    ∀ (l : List String) (vs : List Included),
      loadAll ctx loader enc l = .ok vs →
      vs.length = l.length ∧
      ∀ (i : Nat) (h1 : i < l.length) (h2 : i < vs.length),
        loadOne ctx loader enc (l.get ⟨i, h1⟩) = .ok (vs.get ⟨i, h2⟩) := by
  intro l
  induction l with
  | nil =>
    intro vs h
    simp only [loadAll] at h
    cases h
    exact ⟨rfl, fun i h1 _ => absurd h1 (by simp)⟩
  | cons p rest ih =>
    intro vs h
    simp only [loadAll] at h
    cases ho : loadOne ctx loader enc p with
    | error e => rw [ho] at h; simp at h
    | ok v =>
      rw [ho] at h
      cases hr : loadAll ctx loader enc rest with
      | error e => rw [hr] at h; simp [Except.map] at h
      | ok vs2 =>
        rw [hr] at h
        simp only [Except.map] at h
        cases h
        obtain ⟨hlen, hget⟩ := ih vs2 hr
        constructor
        · simp [hlen]
        · intro i h1 h2
          cases i with
          | zero => simpa using ho
          | succ j =>
            simp only [List.get_cons_succ]
            exact hget j (by simpa using h1) (by simpa using h2)

/-- A loader instance used by concrete instantiations. -/
def loader0 : Loader := ⟨0⟩

/-- A resolver with default construction arguments. -/
def selfD : YamlIncludeConstructor := ⟨none, none⟩

/-- A context whose environment has no `config` entry but does define FOO. -/
def ctxC1a : Ctx :=
  { env := [("FOO", "bar")]
    pyVersion := "3.8"
    yamlLoadFull := fun _ => .ok .null
    yamlLoadWith := fun _ _ => .ok .null
    fs := ⟨[], fun _ _ => []⟩ }

/-- A context whose `config` entry holds text on which the yaml parser
fails. -/
def ctxC1b : Ctx :=
  { env := [("config", "]]][[["), ("FOO", "bar")]
    pyVersion := "3.8"
    yamlLoadFull := fun _ => .error .yamlError
    yamlLoadWith := fun _ _ => .ok .null
    fs := ⟨[], fun _ _ => []⟩ }

/-- C1, counterexample.  With no `config` environment variable the whole
substitution block is skipped by the outer exception handler: the pathname
keeps its placeholder even though FOO is an environment variable, no
diagnostic is printed, and environment-only substitution does not happen;
with a `config` entry whose text fails to parse, the yaml error propagates
out of the substitution step instead of degrading to environment-only
lookup. -/
theorem C1_counterexample :
    substitute ctxC1a "$\x7bFOO\x7d" = (.ok "$\x7bFOO\x7d", []) ∧
    lookupEnv ctxC1a.env "FOO" = some "bar" ∧
    "$\x7bFOO\x7d" ≠ "bar" ∧
    (substitute ctxC1b "$\x7bFOO\x7d").1 = .error .yamlError :=
  ⟨rfl, rfl, by decide, rfl⟩

/-- C1, amended: when the `config` environment variable is unset, the
substitution step is skipped wholesale, returning the pathname unchanged
with no diagnostics and no error (environment variables are not
substituted either); when `config` is set but its YAML parsing fails, the
parse error propagates out of the substitution step. -/
theorem C1_amended (ctx : Ctx) (p : String) :
    (lookupEnv ctx.env "config" = none → substitute ctx p = (.ok p, [])) ∧
    (∀ raw e, lookupEnv ctx.env "config" = some raw →
      ctx.yamlLoadFull raw = .error e → e ≠ .keyError →
      substitute ctx p = (.error e, [])) := by
  constructor
  · intro h
    simp [substitute, h]
  · intro raw e hr he hne
    simp [substitute, hr, he, hne]

theorem C1_amended_witness :
    substitute ctxC1a "x.yml" = (.ok "x.yml", []) ∧
    substitute ctxC1b "x.yml" = (.error .yamlError, []) :=
  ⟨(C1_amended ctxC1a "x.yml").1 rfl,
    (C1_amended ctxC1b "x.yml").2 "]]][[[" .yamlError rfl rfl (by decide)⟩

theorem substLoop_no_keyError (env : List (String × String)) (cfg : Yaml) :
    ∀ (toks : List String) (s : String) (ds : List String),
      (substLoop env cfg toks s ds).1 ≠ .error PyErr.keyError := by
  intro toks
  induction toks with
  | nil =>
    intro s ds
    simp [substLoop]
  | cons tok rest ih =>
    intro s ds
    simp only [substLoop]
    cases lookupEnv env tok with
    | some v => exact ih _ _
    | none =>
      cases hw : walkKeys cfg (pySplitDot tok) with
      | ok y => exact ih _ _
      | error e =>
        cases e with
        | keyError => exact ih _ _
        | typeError => simp
        | yamlError => simp
        | ioError => simp
        | valueError => simp

/-- C2: for every token of the pathname, the replacement value is resolved
with the environment taking precedence (its string value is used as is),
then the dotted key path walked through the parsed `config` mapping (the
string form of the final value is used); and with a parseable `config`
present, `substitute` is exactly this loop over the tokens found in the
requested pathname. -/
theorem C2_token_precedence (ctx : Ctx) (cfg : Yaml) (raw p tok s v : String)
    (rest ds : List String) (y : Yaml) :
    (lookupEnv ctx.env tok = some v →
      substLoop ctx.env cfg (tok :: rest) s ds =
        substLoop ctx.env cfg rest (reSub tok v s) ds) ∧
    (lookupEnv ctx.env tok = none →
      walkKeys cfg (pySplitDot tok) = .ok y →
      substLoop ctx.env cfg (tok :: rest) s ds =
        substLoop ctx.env cfg rest (reSub tok y.pyStr s) ds) ∧
    (lookupEnv ctx.env "config" = some raw →
      ctx.yamlLoadFull raw = .ok cfg →
      substitute ctx p = substLoop ctx.env cfg (findTokens p) p []) := by
  refine ⟨?_, ?_, ?_⟩
  · intro h
    simp [substLoop, h]
  · intro h1 h2
    simp [substLoop, h1, h2]
  · intro h1 h2
    simp only [substitute, h1, h2]
    have hne := substLoop_no_keyError ctx.env cfg (findTokens p) p []
    rcases hsl : substLoop ctx.env cfg (findTokens p) p [] with ⟨res, ds2⟩
    rw [hsl] at hne
    cases res with
    | ok s2 => rfl
    | error e =>
      cases e with
      | keyError => exact absurd rfl hne
      | typeError => rfl
      | yamlError => rfl
      | ioError => rfl
      | valueError => rfl

/-- The nested mapping parsed from a sample `config` value. -/
def cfg0 : Yaml := .map [("db", .map [("host", .str "localhost")])]

/-- A context with a parseable `config` mapping and a FOO environment
variable. -/
def ctxC2 : Ctx :=
  { env := [("config", "db:
  host: localhost"), ("FOO", "bar")]
    pyVersion := "3.8"
    yamlLoadFull := fun _ => .ok cfg0
    yamlLoadWith := fun _ _ => .ok .null
    fs := ⟨[], fun _ _ => []⟩ }

theorem C2_token_precedence_witness :
    substLoop ctxC2.env cfg0 ["FOO"] "a/$\x7bFOO\x7d" [] =
      substLoop ctxC2.env cfg0 [] (reSub "FOO" "bar" "a/$\x7bFOO\x7d") [] ∧
    substLoop ctxC2.env cfg0 ["db.host"] "$\x7bdb.host\x7d.yml" [] =
      substLoop ctxC2.env cfg0 []
        (reSub "db.host" (Yaml.str "localhost").pyStr "$\x7bdb.host\x7d.yml") [] ∧
    substitute ctxC2 "$\x7bdb.host\x7d.yml" =
      substLoop ctxC2.env cfg0 (findTokens "$\x7bdb.host\x7d.yml")
        "$\x7bdb.host\x7d.yml" [] :=
  ⟨(C2_token_precedence ctxC2 cfg0 "" "" "FOO" "a/$\x7bFOO\x7d" "bar" [] []
      .null).1 rfl,
    (C2_token_precedence ctxC2 cfg0 "" "" "db.host" "$\x7bdb.host\x7d.yml" ""
      [] [] (Yaml.str "localhost")).2.1 rfl rfl,
    (C2_token_precedence ctxC2 cfg0 "db:
  host: localhost" "$\x7bdb.host\x7d.yml" "" "" "" [] [] .null).2.2 rfl rfl⟩

/-- A context with an empty filesystem and a glob that matches nothing. -/
def ctxC5 : Ctx :=
  { env := []
    pyVersion := "3.8"
    yamlLoadFull := fun _ => .ok .null
    yamlLoadWith := fun _ _ => .ok .null
    fs := ⟨[], fun _ _ => []⟩ }

/-- C5, counterexample.  A pathname containing a `*` after which a newline
follows is not classified as a wildcard by the anchored single-line
regular expression of the source, so a zero-match situation turns into a
fatal I/O error on the literal pathname instead of an empty list. -/
theorem C5_counterexample :
    containsWildcardMeta "*\na" = true ∧
    globRegularFiles ctxC5 "*\na" false = [] ∧
    loadResolved ctxC5 loader0 "*\na" false "utf-8" = .error .ioError ∧
    (Except.error .ioError : Except PyErr Included) ≠ .ok (.list []) := by
  refine ⟨by decide, rfl, rfl, ?_⟩
  intro h
  exact Except.noConfusion h

/-- C5, amended: restricted to pathnames without a newline character (on
which the single-line classifier regex agrees with the metacharacter
test): a pathname containing a wildcard metacharacter whose expansion
yields no regular file resolves to an empty list without raising, and a
pathname free of wildcard metacharacters that cannot be opened raises a
fatal I/O error that propagates. -/
theorem C5_amended (ctx : Ctx) (loader : Loader) (p : String)
    (recursive : Bool) (enc : String) (hnl : ∀ c ∈ p.data, c ≠ '\n') :
    (containsWildcardMeta p = true →
      globRegularFiles ctx p recursive = [] →
      loadResolved ctx loader p recursive enc = .ok (.list [])) ∧
    (containsWildcardMeta p = false →
      ctx.fs.openF p enc = none →
      loadResolved ctx loader p recursive enc = .error .ioError) := by
  constructor
  · intro hm hg
    have hmem : '*' ∈ p.data ∨ '?' ∈ p.data ∨ hasBracketPair p.data = true := by
      simp only [containsWildcardMeta, Bool.or_eq_true_iff] at hm
      rcases hm with hm1 | hm2
      · rcases hm1 with hma | hmb
        · exact Or.inl (by simpa using hma)
        · exact Or.inr (Or.inl (by simpa using hmb))
      · exact Or.inr (Or.inr hm2)
    have hw : regexWildMatch p = true := meta_wildMatchFrom p.data hnl hmem
    simp only [loadResolved, hw, if_true]
    rw [globLoad_eq_loadAll]
    have : (globList ctx p recursive).filter ctx.fs.isFile = [] := hg
    rw [this]
    rfl
  · intro hm ho
    have hw : regexWildMatch p = false := by
      cases hr : regexWildMatch p with
      | false => rfl
      | true =>
        exfalso
        rcases wildMatchFrom_meta p.data hr with h1 | h2 | h3
        · have : containsWildcardMeta p = true := by
            simp [containsWildcardMeta, h1]
          rw [this] at hm
          exact Bool.noConfusion hm
        · have : containsWildcardMeta p = true := by
            simp [containsWildcardMeta, h2]
          rw [this] at hm
          exact Bool.noConfusion hm
        · have : containsWildcardMeta p = true := by
            simp [containsWildcardMeta, h3]
          rw [this] at hm
          exact Bool.noConfusion hm
    simp only [loadResolved, hw]
    simp only [Bool.false_eq_true, if_false, ho]

/-- A context with two text files and a glob enumeration that also yields
an entry that is not a regular file. -/
def ctxC6 : Ctx :=
  { env := []
    pyVersion := "3.8"
    yamlLoadFull := fun _ => .ok .null
    yamlLoadWith := fun _ c => .ok (.str c)
    fs := ⟨[("a.txt", "A"), ("b.txt", "B")],
      fun _ _ => ["a.txt", "somedir", "b.txt"]⟩ }

theorem C5_amended_witness :
    loadResolved ctxC5 loader0 "*.none" false "utf-8" = .ok (.list []) ∧
    loadResolved ctxC5 loader0 "nofile.txt" false "utf-8" =
      .error .ioError :=
  ⟨(C5_amended ctxC5 loader0 "*.none" false "utf-8" (by decide)).1
      (by decide) rfl,
    (C5_amended ctxC5 loader0 "nofile.txt" false "utf-8" (by decide)).2
      (by decide) rfl⟩

/-- C6: a wildcard pathname resolves to the list obtained by loading, in
glob enumeration order, exactly the matches that are regular files; the
list has one element per matched regular file and its i-th element is the
result of loading the i-th matched file individually.  (Entries of the
enumeration that are not regular files are skipped.) -/
theorem C6_wildcard_list (ctx : Ctx) (loader : Loader) (p : String)
    (recursive : Bool) (enc : String) (vs : List Included)
    (hw : regexWildMatch p = true)
    (hall : loadAll ctx loader enc (globRegularFiles ctx p recursive) = .ok vs) :
    loadResolved ctx loader p recursive enc = .ok (.list vs) ∧
    vs.length = (globRegularFiles ctx p recursive).length ∧
    ∀ (i : Nat) (h1 : i < (globRegularFiles ctx p recursive).length)
      (h2 : i < vs.length),
      loadOne ctx loader enc ((globRegularFiles ctx p recursive).get ⟨i, h1⟩) =
        .ok (vs.get ⟨i, h2⟩) := by
  obtain ⟨hlen, hget⟩ :=
    loadAll_ok ctx loader enc (globRegularFiles ctx p recursive) vs hall
  refine ⟨?_, hlen, hget⟩
  simp only [loadResolved, hw, if_true]
  rw [globLoad_eq_loadAll]
  have : loadAll ctx loader enc ((globList ctx p recursive).filter ctx.fs.isFile) = .ok vs := hall
  rw [this]

theorem C6_wildcard_list_witness :
    loadResolved ctxC6 loader0 "*.txt" false "utf-8" =
      .ok (.list [.text "A", .text "B"]) ∧
    globRegularFiles ctxC6 "*.txt" false = ["a.txt", "b.txt"] :=
  ⟨(C6_wildcard_list ctxC6 loader0 "*.txt" false "utf-8"
      [.text "A", .text "B"] (by decide) rfl).1, rfl⟩

/-- C7: a resolved file whose name ends case-insensitively in `.yaml` or
`.yml` is parsed recursively by the yaml library with the same loader
type as the active parser (so nested include tags are resolved by the
same constructor bindings), and the parsed value is returned; any other
file is returned as its entire text content, unparsed. -/
theorem C7_extension_dispatch (ctx : Ctx) (path content : String)
    (loader : Loader) :
    ((pyLowerEndsWith path ".yaml" = true ∨ pyLowerEndsWith path ".yml" = true) →
      loadYamlM ctx path content loader =
        (ctx.yamlLoadWith loader.kind content).map Included.yaml) ∧
    (pyLowerEndsWith path ".yaml" = false → pyLowerEndsWith path ".yml" = false →
      loadYamlM ctx path content loader = .ok (.text content)) := by
  constructor
  · intro h
    rcases h with h | h <;> simp [loadYamlM, h]
  · intro h1 h2
    simp [loadYamlM, h1, h2]

theorem C7_extension_dispatch_witness :
    loadYamlM ctxC6 "Sub.YAML" "k: v" loader0 =
      (ctxC6.yamlLoadWith loader0.kind "k: v").map Included.yaml ∧
    loadYamlM ctxC6 "notes.txt" "plain text" loader0 =
      .ok (.text "plain text") :=
  ⟨(C7_extension_dispatch ctxC6 "Sub.YAML" "k: v" loader0).1
      (Or.inl (by decide)),
    (C7_extension_dispatch ctxC6 "notes.txt" "plain text" loader0).2
      (by decide) (by decide)⟩

/-- C8: the constructor callback dispatches on the node shape: a scalar
contributes its text as the sole positional pathname; a sequence is read
positionally as pathname, recursive, encoding with the trailing arguments
optional; a mapping is read as those named arguments; and a node of any
other shape produces a fatal TypeError that aborts the parse. -/
theorem C8_dispatch (self : YamlIncludeConstructor) (ctx : Ctx)
    (loader : Loader) (t ps es : String) (rb : Bool)
    (pairs : List (String × PyVal)) :
    (self.call ctx loader (.scalar t) =
      self.load ctx loader t false none) ∧
    (self.call ctx loader (.sequence [.str ps]) =
      self.load ctx loader ps false none) ∧
    (self.call ctx loader (.sequence [.str ps, .bool rb]) =
      self.load ctx loader ps rb none) ∧
    (self.call ctx loader (.sequence [.str ps, .bool rb, .str es]) =
      self.load ctx loader ps rb (some es)) ∧
    (pairs.all (fun kv => allowedKey kv.1) = true →
      lookupKw pairs "pathname" = some (.str ps) →
      self.call ctx loader (.mapping pairs) =
        self.load ctx loader ps
          (pyTruthy ((lookupKw pairs "recursive").getD (.bool false)))
          (asEncoding ((lookupKw pairs "encoding").getD .pynone))) ∧
    (self.call ctx loader .other = ⟨.error .typeError, [], self⟩) := by
  refine ⟨rfl, rfl, rfl, rfl, ?_, rfl⟩
  intro h1 h2
  simp [YamlIncludeConstructor.call, bindArgs, h1, h2]

theorem C8_dispatch_witness :
    selfD.call ctxC6 loader0
        (.mapping [("pathname", .str "f.txt"), ("recursive", .bool true)]) =
      selfD.load ctxC6 loader0 "f.txt" true none ∧
    selfD.call ctxC6 loader0 .other = ⟨.error .typeError, [], selfD⟩ :=
  ⟨(C8_dispatch selfD ctxC6 loader0 "" "f.txt" "" false
      [("pathname", .str "f.txt"), ("recursive", .bool true)]).2.2.2.2.1
      (by decide) rfl,
    (C8_dispatch selfD ctxC6 loader0 "" "" "" false []).2.2.2.2.2⟩

/-- The empty registry. -/
def reg0 : Registry := ⟨[]⟩

/-- C9, counterexample.  The tag argument is stripped before the checks, so
the non-empty tag consisting of one space, which does not start with the
sigil character, does not raise: it is silently replaced by the default
tag name and registration succeeds. -/
theorem C9_counterexample :
    (" " : String) ≠ "" ∧
    (pyStartsWith " " "!") = false ∧
    add_to_loader_class none (some " ") none none reg0 =
      (.ok ⟨none, none⟩, ⟨[(none, DEFAULT_TAG_NAME, ⟨none, none⟩)]⟩) := by
  refine ⟨by decide, by decide, ?_⟩
  rfl

/-- C9, amended: the tag is first stripped of surrounding whitespace; a
missing tag or one that strips to the empty string is replaced by the
default tag name and registration succeeds; a tag that is non-empty after
stripping and does not start with the sigil character raises ValueError
with nothing registered; on success the newly created resolver instance
carrying the given base directory and encoding is registered and
returned. -/
theorem C9_amended (lc : Option Nat) (tag : Option String)
    (bd enc : Option String) (reg : Registry) :
    ((tag = none ∨ pyStrip (tag.getD "") = "") →
      add_to_loader_class lc tag bd enc reg =
        (.ok ⟨bd, enc⟩, ⟨(lc, DEFAULT_TAG_NAME, ⟨bd, enc⟩) :: reg.bindings⟩)) ∧
    (pyStrip (tag.getD "") ≠ "" →
      pyStartsWith (pyStrip (tag.getD "")) "!" = false →
      add_to_loader_class lc tag bd enc reg = (.error .valueError, reg)) ∧
    (pyStartsWith (pyStrip (tag.getD "")) "!" = true →
      add_to_loader_class lc tag bd enc reg =
        (.ok ⟨bd, enc⟩,
          ⟨(lc, pyStrip (tag.getD ""), ⟨bd, enc⟩) :: reg.bindings⟩)) := by
  refine ⟨?_, ?_, ?_⟩
  · intro h
    have hs : pyStrip (tag.getD "") = "" := by
      rcases h with h | h
      · subst h; rfl
      · exact h
    have hbang : pyStartsWith DEFAULT_TAG_NAME "!" = true := by decide
    simp [add_to_loader_class, hs, hbang]
  · intro h1 h2
    simp [add_to_loader_class, h1, h2]
  · intro h
    have hne : pyStrip (tag.getD "") ≠ "" := by
      intro he
      rw [he] at h
      exact Bool.noConfusion h
    simp [add_to_loader_class, hne, h]

theorem C9_amended_witness :
    add_to_loader_class none (some "   ") (some "/base") (some "latin-1") reg0 =
      (.ok ⟨some "/base", some "latin-1"⟩,
        ⟨[(none, DEFAULT_TAG_NAME, ⟨some "/base", some "latin-1"⟩)]⟩) ∧
    add_to_loader_class (some 3) (some "inc") none none reg0 =
      (.error .valueError, reg0) ∧
    add_to_loader_class (some 3) (some " !inc ") none none reg0 =
      (.ok ⟨none, none⟩, ⟨[(some 3, "!inc", ⟨none, none⟩)]⟩) :=
  ⟨(C9_amended none (some "   ") (some "/base") (some "latin-1") reg0).1
      (Or.inr (by decide)),
    (C9_amended (some 3) (some "inc") none none reg0).2.1 (by decide)
      (by decide),
    (C9_amended (some 3) (some " !inc ") none none reg0).2.2 (by decide)⟩

/-- C10: on every exit path of an include resolution, through the
dispatcher or directly through `load`, the resolver configuration (base
directory and encoding) at exit is the configuration at entry: neither a
per-request encoding argument nor base-directory joining nor any error
path writes back into the resolver. -/
theorem C10_frame (self : YamlIncludeConstructor) (ctx : Ctx)
    (loader : Loader) (pathname : String) (recursive : Bool)
    (encoding : Option String) (node : Node) :
    (self.load ctx loader pathname recursive encoding).resolver = self ∧
    (self.call ctx loader node).resolver = self := by
  have hload : ∀ (pn : String) (rc : Bool) (en : Option String),
      (self.load ctx loader pn rc en).resolver = self := by
    intro pn rc en
    rcases hs : substitute ctx pn with ⟨res, ds⟩
    cases res with
    | ok p1 => simp [YamlIncludeConstructor.load, hs]
    | error e => simp [YamlIncludeConstructor.load, hs]
  constructor
  · exact hload pathname recursive encoding
  · cases hb : bindArgs node with
    | error e => simp [YamlIncludeConstructor.call, hb]
    | ok args =>
      rcases args with ⟨p, r, e⟩
      cases p with
      | str ps => simp [YamlIncludeConstructor.call, hb, hload]
      | bool b => simp [YamlIncludeConstructor.call, hb]
      | int n => simp [YamlIncludeConstructor.call, hb]
      | pynone => simp [YamlIncludeConstructor.call, hb]
